import Mathlib

/-!
# telegram-web-alerts: the debounced change detector of `main.go`

A shallow embedding of the change-detection engine of `src/main.go`
(`getStatusEmoji`, `trackChanges`, `restartBot`, the polling loop of `main`)
together with theorems about the sliding four-sample windows.

Modelling decisions.

* Go `int` values are `Int`; the detector only compares and copies them.
* A Go `map[string]V` is a function `String → Option V`; reading a missing key
  gives the zero value of `V`, as in Go.
* `checkPageStatus` performs network I/O.  It is an input of a cycle: a function
  from the two arguments of the call to the returned pair `(status, blockCount)`
  (`(0, 0)` when the request or the HTML parse fails).
* `for url, blockClass := range pages` visits the entries of a map in an order
  chosen by the runtime.  The configured pages are a list of `(url, blockClass)`
  pairs and every cycle carries a function `range` that picks the visiting
  order of that cycle; theorems assume it returns a permutation of its argument.
* `sendTelegramMessage(formatMessage(template, replacements))` is recorded as a
  `Message` holding the template and the replacement values of the call; the
  textual substitution of `formatMessage` is not modelled.
* `restartBot` is called from the goroutine of the command listener.  It is a
  step on the same state, taken between two cycles; what it reads from the
  environment and from the configuration files is an input.
-/

namespace TelegramWebAlerts

/-! ## Data model -/

/-- Go `[4]int`: one history window, index 0 first. -/
structure Arr4 where
  i0 : Int
  i1 : Int
  i2 : Int
  i3 : Int
  deriving DecidableEq

/-- The zero value of `[4]int`. -/
def Arr4.zero : Arr4 := ⟨0, 0, 0, 0⟩

/-- Go `map[string]V`. -/
abbrev GoMap (V : Type) := String → Option V

/-- The map made by `make(map[string]V)`. -/
def GoMap.empty {V : Type} : GoMap V := fun _ => none

/-- Assignment `m[k] = v`. -/
def GoMap.set {V : Type} (m : GoMap V) (k : String) (v : V) : GoMap V :=
  fun k' => if k' = k then some v else m k'

/-- Index expression `statusHistory[url]` / `blockHistory[url]`: the zero array for a missing key. -/
def GoMap.arr (m : GoMap Arr4) (k : String) : Arr4 := (m k).getD Arr4.zero

/-- Type `Messages`, `map[string]map[string]string`, read through `messages[language][key]`
(the empty string when either key is missing). -/
abbrev Messages := String → String → String

/-- The result of one `checkPageStatus(url, blockClass)` call: `(status, blockCount)`. -/
abbrev Prober := String → String → Int × Int

/-- What is handed to `sendTelegramMessage`. -/
inductive Message where
  /-- The call `emoji + " " + formatMessage(messages[language]["status_change"], ...)` with
  the replacements `url`, `old_status`, `new_status`. -/
  | status_change (emoji template url : String) (old_status new_status : Int)
  /-- The call `formatMessage(messages[language]["block_count_change"], ...)` with the
  replacements `url`, `old_blocks`, `new_blocks`. -/
  | block_count_change (template url : String) (old_blocks new_blocks : Int)
  /-- A template sent as it is. -/
  | plain (text : String)
  deriving DecidableEq

/-- The package-level variables read or written by the detector. -/
structure State where
  baseURL : String
  delay : Int
  language : String
  pages : List (String × String)
  messages : Messages
  prevData : GoMap (Int × Int)
  statusHistory : GoMap Arr4
  blockHistory : GoMap Arr4

/-! ## Operations -/

/-- Function `getStatusEmoji` (`http.StatusOK` is 200). -/
def getStatusEmoji (status : Int) : String :=
  if status = 200 then "🟢"
  else if status ≥ 500 then "🔴"
  else "🟡"

/-- The body of the `for` loop of `trackChanges`, for one entry `(url, blockClass)` of `pages`. -/
def trackPage (checkPageStatus : Prober) (s : State) (url blockClass : String) :
    State × List Message :=
  let r := checkPageStatus (s.baseURL ++ url) blockClass
  let status := r.1
  let blockCount := r.2
  let statusHistory := s.statusHistory.set url
    ⟨(s.statusHistory.arr url).i1, (s.statusHistory.arr url).i2,
      (s.statusHistory.arr url).i3, status⟩
  let blockHistory := s.blockHistory.set url
    ⟨(s.blockHistory.arr url).i1, (s.blockHistory.arr url).i2,
      (s.blockHistory.arr url).i3, blockCount⟩
  let sh := statusHistory.arr url
  let bh := blockHistory.arr url
  let sent1 : List Message :=
    if sh.i0 ≠ sh.i1 ∧ sh.i1 = sh.i2 ∧ sh.i2 = sh.i3 ∧ sh.i0 ≠ 0 then
      [Message.status_change (getStatusEmoji status) (s.messages s.language "status_change")
        (s.baseURL ++ url) sh.i0 status]
    else []
  let sent2 : List Message :=
    if bh.i0 ≠ bh.i1 ∧ bh.i1 = bh.i2 ∧ bh.i2 = bh.i3 ∧ bh.i0 ≠ 0 then
      [Message.block_count_change (s.messages s.language "block_count_change")
        (s.baseURL ++ url) bh.i0 blockCount]
    else []
  ({ s with statusHistory := statusHistory, blockHistory := blockHistory,
            prevData := s.prevData.set url (status, blockCount) },
   sent1 ++ sent2)

/-- The `for` loop of `trackChanges` over the entries in visiting order. -/
def trackPages (checkPageStatus : Prober) : List (String × String) → State → State × List Message
  | [], s => (s, [])
  | (url, blockClass) :: rest, s =>
    let r := trackPage checkPageStatus s url blockClass
    let r' := trackPages checkPageStatus rest r.1
    (r'.1, r.2 ++ r'.2)

/-- Function `trackChanges`: one cycle; returns the new state and the messages sent, in order. -/
def trackChanges (range : List (String × String) → List (String × String))
    (checkPageStatus : Prober) (s : State) : State × List Message :=
  trackPages checkPageStatus (range s.pages) s

/-- The inputs of one cycle: the visiting order of `range pages` and the probe results. -/
structure Cycle where
  range : List (String × String) → List (String × String)
  checkPageStatus : Prober

/-- The loop `for { trackChanges(); time.Sleep(delay) }` of `main`, run for the given cycles;
returns the final state and, per cycle, the messages sent. -/
def mainLoop : List Cycle → State → State × List (List Message)
  | [], s => (s, [])
  | c :: cs, s =>
    let r := trackChanges c.range c.checkPageStatus s
    let r' := mainLoop cs r.1
    (r'.1, r.2 :: r'.2)

/-- What `restartBot` reads from its environment: whether `godotenv.Load` succeeded, the
environment variables, the parsed `DELAY`, and the two configuration files (an empty page list
and empty templates when loading fails, the error being discarded). -/
structure Reload where
  envLoaded : Bool
  BASE_URL : String
  delay : Int
  LANGUAGE : String
  pages : List (String × String)
  messages : Messages

/-- Function `restartBot`; `none` when `loadEnv` ends the process with `log.Fatalf`. -/
def restartBot (w : Reload) (s : State) : Option (State × List Message) :=
  if w.envLoaded then
    some ({ s with baseURL := w.BASE_URL, delay := w.delay, language := w.LANGUAGE,
                   pages := w.pages, messages := w.messages },
          [Message.plain (w.messages w.LANGUAGE "monitoring_started")])
  else none

/-! ## Reading the outcome of a cycle -/

/-- Whether a message is a status-change notification carrying the address `u`. -/
def Message.isStatusFor (u : String) : Message → Bool
  | .status_change _ _ url _ _ => decide (url = u)
  | _ => false

/-- Whether a message is a block-count-change notification carrying the address `u`. -/
def Message.isBlockFor (u : String) : Message → Bool
  | .block_count_change _ url _ _ => decide (url = u)
  | _ => false

/-- The status-change notifications for address `u` among the messages of a cycle. -/
def statusEventsFor (u : String) (ms : List Message) : List Message :=
  ms.filter (Message.isStatusFor u)

/-- The block-count-change notifications for address `u` among the messages of a cycle. -/
def blockEventsFor (u : String) (ms : List Message) : List Message :=
  ms.filter (Message.isBlockFor u)

/-- The array literal `[4]int{h[1], h[2], h[3], v}` built at the top of the loop body. -/
def Arr4.push (h : Arr4) (v : Int) : Arr4 := ⟨h.i1, h.i2, h.i3, v⟩

/-- The condition of both `if` statements of the loop body, on a window `h`. -/
def Arr4.fires (h : Arr4) : Prop :=
  h.i0 ≠ h.i1 ∧ h.i1 = h.i2 ∧ h.i2 = h.i3 ∧ h.i0 ≠ 0

instance (h : Arr4) : Decidable h.fires := by
  unfold Arr4.fires; infer_instance

/-- The status-change messages of one loop body, from the window `h` read before the
assignment and the probed status `v`. -/
def statusMsgs (template baseURL url : String) (h : Arr4) (v : Int) : List Message :=
  if (h.push v).fires then
    [Message.status_change (getStatusEmoji v) template (baseURL ++ url) h.i1 v]
  else []

/-- The block-count-change messages of one loop body, from the window `h` read before the
assignment and the probed count `v`. -/
def blockMsgs (template baseURL url : String) (h : Arr4) (v : Int) : List Message :=
  if (h.push v).fires then
    [Message.block_count_change template (baseURL ++ url) h.i1 v]
  else []

/-- The messages of one `if` of the loop body, for any way `mk old new` of building the message. -/
def changeMsgs (mk : Int → Int → Message) (h : Arr4) (v : Int) : List Message :=
  if (h.push v).fires then [mk h.i1 v] else []

/-- Per cycle, the messages of one metric of one page fed the samples `vs` from window `h`. -/
def changeTrace (mk : Int → Int → Message) : Arr4 → List Int → List (List Message)
  | _, [] => []
  | h, v :: vs => changeMsgs mk h v :: changeTrace mk (h.push v) vs

/-- A page list is a Go map: no key occurs twice. -/
def KeysDistinct (pages : List (String × String)) : Prop := (pages.map Prod.fst).Nodup

instance (pages : List (String × String)) : Decidable (KeysDistinct pages) := by
  unfold KeysDistinct; infer_instance

/-- Every cycle visits each entry of the map once: `range` permutes its argument. -/
def RangesPermute (cs : List Cycle) : Prop := ∀ c ∈ cs, ∀ l, (c.range l).Perm l

/-- What a run of loop bodies leaves alone for the key `k`. -/
def Untouched (k : String) (s : State) (r : State × List Message) : Prop :=
  r.1.statusHistory k = s.statusHistory k ∧ r.1.blockHistory k = s.blockHistory k ∧
  r.1.prevData k = s.prevData k ∧
  statusEventsFor (s.baseURL ++ k) r.2 = [] ∧ blockEventsFor (s.baseURL ++ k) r.2 = []

/-- What a run of loop bodies does for a page `(url, cls)` that it visits once. -/
def Visited (p : Prober) (url cls : String) (s : State) (r : State × List Message) : Prop :=
  r.1.statusHistory.arr url = (s.statusHistory.arr url).push (p (s.baseURL ++ url) cls).1 ∧
  r.1.blockHistory.arr url = (s.blockHistory.arr url).push (p (s.baseURL ++ url) cls).2 ∧
  r.1.prevData url = some (p (s.baseURL ++ url) cls) ∧
  statusEventsFor (s.baseURL ++ url) r.2
    = statusMsgs (s.messages s.language "status_change") s.baseURL url
        (s.statusHistory.arr url) (p (s.baseURL ++ url) cls).1 ∧
  blockEventsFor (s.baseURL ++ url) r.2
    = blockMsgs (s.messages s.language "block_count_change") s.baseURL url
        (s.blockHistory.arr url) (p (s.baseURL ++ url) cls).2

/-! ## The two metrics, uniformly -/

/-- The two metrics the loop body tracks. -/
inductive Metric where
  | status
  | blocks
  deriving DecidableEq

/-- The window of a page for a metric: `statusHistory[url]` or `blockHistory[url]`. -/
def Metric.window (m : Metric) (s : State) (url : String) : Arr4 :=
  match m with
  | .status => s.statusHistory.arr url
  | .blocks => s.blockHistory.arr url

/-- The component of a probe result that a metric tracks: `status` or `blockCount`. -/
def Metric.sample (m : Metric) (r : Int × Int) : Int :=
  match m with
  | .status => r.1
  | .blocks => r.2

/-- The change notifications of a metric carrying the address `u`, among the messages sent. -/
def Metric.eventsFor (m : Metric) (u : String) (ms : List Message) : List Message :=
  match m with
  | .status => statusEventsFor u ms
  | .blocks => blockEventsFor u ms

/-- The change notification the loop body sends for page `url`, old value `o`, new value `n`. -/
def Metric.event (m : Metric) (s : State) (url : String) (o n : Int) : Message :=
  match m with
  | .status => Message.status_change (getStatusEmoji n) (s.messages s.language "status_change")
      (s.baseURL ++ url) o n
  | .blocks => Message.block_count_change (s.messages s.language "block_count_change")
      (s.baseURL ++ url) o n

/-- The samples of a metric probed for page `(url, cls)` in the given cycles. -/
def Metric.samples (m : Metric) (s : State) (url cls : String) (cs : List Cycle) : List Int :=
  cs.map (fun c => m.sample (c.checkPageStatus (s.baseURL ++ url) cls))

/-- The change notifications of metric `m` for page `url`, cycle by cycle, when the loop of
`main` runs the cycles `cs` from state `s`. -/
def Metric.eventsPerCycle (m : Metric) (s : State) (url : String) (cs : List Cycle) :
    List (List Message) :=
  (mainLoop cs s).2.map (m.eventsFor (s.baseURL ++ url))

/-! ## Worked configuration -/

/-- Message templates of the worked configuration. -/
def demoMessages : Messages := fun lang key =>
  if lang = "en" then
    (if key = "status_change" then "status changed"
     else if key = "block_count_change" then "block count changed"
     else if key = "monitoring_started" then "monitoring started"
     else "")
  else ""

/-- A site with two configured pages; page "/" has the given status and block windows, the
other page was never observed. -/
def demoState (sh bh : Arr4) : State :=
  { baseURL := "https://example.org", delay := 60000000000, language := "en",
    pages := [("/", "card"), ("/news", "item")], messages := demoMessages,
    prevData := GoMap.empty, statusHistory := GoMap.empty.set "/" sh,
    blockHistory := GoMap.empty.set "/" bh }

/-- The same site right after start: nothing was observed yet. -/
def freshState : State :=
  { baseURL := "https://example.org", delay := 60000000000, language := "en",
    pages := [("/", "card"), ("/news", "item")], messages := demoMessages,
    prevData := GoMap.empty, statusHistory := GoMap.empty, blockHistory := GoMap.empty }

/-- A cycle that visits the pages in reverse stored order, probes page "/" as `r` and every
other page as `r'`. -/
def demoCycle (r r' : Int × Int) : Cycle :=
  { range := List.reverse,
    checkPageStatus := fun u _ => if u = "https://example.org/" then r else r' }

/-- A cycle that visits the pages in stored order, probes page "/" as `r` and every other page
as `r'`. -/
def otherCycle (r r' : Int × Int) : Cycle :=
  { range := id,
    checkPageStatus := fun u _ => if u = "https://example.org/" then r else r' }

/-- What a restart reads when the worked configuration is reloaded unchanged. -/
def demoReload : Reload :=
  { envLoaded := true, BASE_URL := "https://example.org", delay := 60000000000,
    LANGUAGE := "en", pages := [("/", "card"), ("/news", "item")], messages := demoMessages }

/-- Cycles in which page "/" yields the given results and the other page always `(404, 7)`. -/
def demoRun (rs : List (Int × Int)) : List Cycle := rs.map (fun r => demoCycle r (404, 7))

/-! ## Maps and strings -/

theorem arr_set_same (m : GoMap Arr4) (k : String) (v : Arr4) : (m.set k v).arr k = v := by
  simp [GoMap.arr, GoMap.set]

theorem arr_set_other (m : GoMap Arr4) {k k' : String} (v : Arr4) (h : k' ≠ k) :
    (m.set k v).arr k' = m.arr k' := by
  simp [GoMap.arr, GoMap.set, h]

theorem append_left_cancel {a b c : String} (h : a ++ b = a ++ c) : b = c := by
  have h2 := congrArg String.data h
  simp only [String.data_append] at h2
  exact String.ext (List.append_cancel_left h2)

/-! ## One loop body -/

@[simp] theorem trackPage_baseURL (p : Prober) (s : State) (url cls : String) :
    (trackPage p s url cls).1.baseURL = s.baseURL := rfl

@[simp] theorem trackPage_language (p : Prober) (s : State) (url cls : String) :
    (trackPage p s url cls).1.language = s.language := rfl

@[simp] theorem trackPage_messages (p : Prober) (s : State) (url cls : String) :
    (trackPage p s url cls).1.messages = s.messages := rfl

@[simp] theorem trackPage_pages (p : Prober) (s : State) (url cls : String) :
    (trackPage p s url cls).1.pages = s.pages := rfl

theorem trackPage_statusHistory_same (p : Prober) (s : State) (url cls : String) :
    (trackPage p s url cls).1.statusHistory.arr url
      = (s.statusHistory.arr url).push (p (s.baseURL ++ url) cls).1 := by
  simp [trackPage, arr_set_same, Arr4.push]

theorem trackPage_blockHistory_same (p : Prober) (s : State) (url cls : String) :
    (trackPage p s url cls).1.blockHistory.arr url
      = (s.blockHistory.arr url).push (p (s.baseURL ++ url) cls).2 := by
  simp [trackPage, arr_set_same, Arr4.push]

theorem trackPage_prevData_same (p : Prober) (s : State) (url cls : String) :
    (trackPage p s url cls).1.prevData url = some (p (s.baseURL ++ url) cls) := by
  simp [trackPage, GoMap.set]

theorem trackPage_statusHistory_other (p : Prober) (s : State) (url cls : String) {k : String}
    (h : k ≠ url) : (trackPage p s url cls).1.statusHistory k = s.statusHistory k := by
  simp [trackPage, GoMap.set, h]

theorem trackPage_blockHistory_other (p : Prober) (s : State) (url cls : String) {k : String}
    (h : k ≠ url) : (trackPage p s url cls).1.blockHistory k = s.blockHistory k := by
  simp [trackPage, GoMap.set, h]

theorem trackPage_prevData_other (p : Prober) (s : State) (url cls : String) {k : String}
    (h : k ≠ url) : (trackPage p s url cls).1.prevData k = s.prevData k := by
  simp [trackPage, GoMap.set, h]

/-- The messages of one loop body, in terms of the windows read before the assignment. -/
theorem trackPage_sent (p : Prober) (s : State) (url cls : String) :
    (trackPage p s url cls).2
      = statusMsgs (s.messages s.language "status_change") s.baseURL url
          (s.statusHistory.arr url) (p (s.baseURL ++ url) cls).1
        ++ blockMsgs (s.messages s.language "block_count_change") s.baseURL url
          (s.blockHistory.arr url) (p (s.baseURL ++ url) cls).2 := by
  simp [trackPage, arr_set_same, statusMsgs, blockMsgs, Arr4.push, Arr4.fires]

theorem statusEventsFor_append (u : String) (a b : List Message) :
    statusEventsFor u (a ++ b) = statusEventsFor u a ++ statusEventsFor u b := by
  simp [statusEventsFor]

theorem blockEventsFor_append (u : String) (a b : List Message) :
    blockEventsFor u (a ++ b) = blockEventsFor u a ++ blockEventsFor u b := by
  simp [blockEventsFor]

theorem statusEventsFor_statusMsgs (t b url url' : String) (h : Arr4) (v : Int) :
    statusEventsFor (b ++ url') (statusMsgs t b url h v)
      = if url = url' then statusMsgs t b url h v else [] := by
  unfold statusMsgs statusEventsFor
  by_cases hu : url = url'
  · subst hu; split <;> simp [Message.isStatusFor]
  · have : b ++ url ≠ b ++ url' := fun e => hu (append_left_cancel e)
    split <;> simp [Message.isStatusFor, this, hu]

theorem statusEventsFor_blockMsgs (u t b url : String) (h : Arr4) (v : Int) :
    statusEventsFor u (blockMsgs t b url h v) = [] := by
  unfold blockMsgs statusEventsFor
  split <;> simp [Message.isStatusFor]

theorem blockEventsFor_blockMsgs (t b url url' : String) (h : Arr4) (v : Int) :
    blockEventsFor (b ++ url') (blockMsgs t b url h v)
      = if url = url' then blockMsgs t b url h v else [] := by
  unfold blockMsgs blockEventsFor
  by_cases hu : url = url'
  · subst hu; split <;> simp [Message.isBlockFor]
  · have : b ++ url ≠ b ++ url' := fun e => hu (append_left_cancel e)
    split <;> simp [Message.isBlockFor, this, hu]

theorem blockEventsFor_statusMsgs (u t b url : String) (h : Arr4) (v : Int) :
    blockEventsFor u (statusMsgs t b url h v) = [] := by
  unfold statusMsgs blockEventsFor
  split <;> simp [Message.isBlockFor]

theorem mem_statusMsgs_isStatusFor {t b url : String} {h : Arr4} {v : Int} {e : Message}
    (he : e ∈ statusMsgs t b url h v) : e.isStatusFor (b ++ url) = true := by
  unfold statusMsgs at he
  split at he
  · rw [List.mem_singleton] at he; subst he; simp [Message.isStatusFor]
  · simp at he

theorem mem_blockMsgs_isBlockFor {t b url : String} {h : Arr4} {v : Int} {e : Message}
    (he : e ∈ blockMsgs t b url h v) : e.isBlockFor (b ++ url) = true := by
  unfold blockMsgs at he
  split at he
  · rw [List.mem_singleton] at he; subst he; simp [Message.isBlockFor]
  · simp at he

theorem trackPage_untouched (p : Prober) (s : State) (url cls : String) {k : String}
    (h : k ≠ url) : Untouched k s (trackPage p s url cls) := by
  refine ⟨trackPage_statusHistory_other p s url cls h, trackPage_blockHistory_other p s url cls h,
    trackPage_prevData_other p s url cls h, ?_, ?_⟩
  · rw [trackPage_sent, statusEventsFor_append, statusEventsFor_statusMsgs,
      statusEventsFor_blockMsgs, if_neg (Ne.symm h)]; rfl
  · rw [trackPage_sent, blockEventsFor_append, blockEventsFor_blockMsgs,
      blockEventsFor_statusMsgs, if_neg (Ne.symm h)]; rfl

theorem trackPage_visited (p : Prober) (s : State) (url cls : String) :
    Visited p url cls s (trackPage p s url cls) := by
  refine ⟨trackPage_statusHistory_same p s url cls, trackPage_blockHistory_same p s url cls,
    trackPage_prevData_same p s url cls, ?_, ?_⟩
  · rw [trackPage_sent, statusEventsFor_append, statusEventsFor_statusMsgs,
      statusEventsFor_blockMsgs, if_pos rfl]; simp
  · rw [trackPage_sent, blockEventsFor_append, blockEventsFor_blockMsgs,
      blockEventsFor_statusMsgs, if_pos rfl]; simp

/-! ## The loop over the pages -/

@[simp] theorem trackPages_baseURL (p : Prober) (l : List (String × String)) (s : State) :
    (trackPages p l s).1.baseURL = s.baseURL := by
  induction l generalizing s with
  | nil => rfl
  | cons x rest ih => simp [trackPages, ih]

@[simp] theorem trackPages_language (p : Prober) (l : List (String × String)) (s : State) :
    (trackPages p l s).1.language = s.language := by
  induction l generalizing s with
  | nil => rfl
  | cons x rest ih => simp [trackPages, ih]

@[simp] theorem trackPages_messages (p : Prober) (l : List (String × String)) (s : State) :
    (trackPages p l s).1.messages = s.messages := by
  induction l generalizing s with
  | nil => rfl
  | cons x rest ih => simp [trackPages, ih]

@[simp] theorem trackPages_pages (p : Prober) (l : List (String × String)) (s : State) :
    (trackPages p l s).1.pages = s.pages := by
  induction l generalizing s with
  | nil => rfl
  | cons x rest ih => simp [trackPages, ih]

theorem trackPages_untouched (p : Prober) (l : List (String × String)) (s : State) {k : String}
    (h : k ∉ l.map Prod.fst) : Untouched k s (trackPages p l s) := by
  induction l generalizing s with
  | nil => exact ⟨rfl, rfl, rfl, rfl, rfl⟩
  | cons x rest ih =>
    obtain ⟨url, cls⟩ := x
    simp only [List.map_cons, List.mem_cons, not_or] at h
    obtain ⟨h1, h2, h3, h4, h5⟩ := trackPage_untouched p s url cls h.1
    obtain ⟨g1, g2, g3, g4, g5⟩ := ih (trackPage p s url cls).1 h.2
    simp only [trackPage_baseURL] at g4 g5
    refine ⟨?_, ?_, ?_, ?_, ?_⟩
    · simp only [trackPages]; rw [g1, h1]
    · simp only [trackPages]; rw [g2, h2]
    · simp only [trackPages]; rw [g3, h3]
    · simp only [trackPages]; rw [statusEventsFor_append, h4, g4]; rfl
    · simp only [trackPages]; rw [blockEventsFor_append, h5, g5]; rfl

theorem trackPages_visited (p : Prober) (l : List (String × String)) (s : State)
    {url cls : String} (hk : KeysDistinct l) (hm : (url, cls) ∈ l) :
    Visited p url cls s (trackPages p l s) := by
  induction l generalizing s with
  | nil => simp at hm
  | cons x rest ih =>
    obtain ⟨u, c⟩ := x
    simp only [KeysDistinct, List.map_cons, List.nodup_cons] at hk
    rcases List.mem_cons.1 hm with heq | hin
    · obtain ⟨rfl, rfl⟩ := Prod.mk.inj heq
      obtain ⟨h1, h2, h3, h4, h5⟩ := trackPage_visited p s url cls
      obtain ⟨g1, g2, g3, g4, g5⟩ := trackPages_untouched p rest (trackPage p s url cls).1 hk.1
      simp only [trackPage_baseURL] at g4 g5
      refine ⟨?_, ?_, ?_, ?_, ?_⟩
      · simp only [trackPages, GoMap.arr] at h1 ⊢; rw [g1]; exact h1
      · simp only [trackPages, GoMap.arr] at h2 ⊢; rw [g2]; exact h2
      · simp only [trackPages]; rw [g3, h3]
      · simp only [trackPages]; rw [statusEventsFor_append, h4, g4]; simp
      · simp only [trackPages]; rw [blockEventsFor_append, h5, g5]; simp
    · have hne : url ≠ u := by
        rintro rfl
        exact hk.1 (List.mem_map_of_mem Prod.fst hin)
      obtain ⟨h1, h2, h3, h4, h5⟩ := trackPage_untouched p s u c hne
      obtain ⟨g1, g2, g3, g4, g5⟩ := ih (trackPage p s u c).1 hk.2 hin
      simp only [trackPage_baseURL, trackPage_messages, trackPage_language] at g1 g2 g3 g4 g5
      have e1 : (trackPage p s u c).1.statusHistory.arr url = s.statusHistory.arr url := by
        simp only [GoMap.arr]; rw [h1]
      have e2 : (trackPage p s u c).1.blockHistory.arr url = s.blockHistory.arr url := by
        simp only [GoMap.arr]; rw [h2]
      rw [e1] at g1 g4
      rw [e2] at g2 g5
      refine ⟨?_, ?_, ?_, ?_, ?_⟩
      · simp only [trackPages]; exact g1
      · simp only [trackPages]; exact g2
      · simp only [trackPages]; exact g3
      · simp only [trackPages]; rw [statusEventsFor_append, h4, g4]; rfl
      · simp only [trackPages]; rw [blockEventsFor_append, h5, g5]; rfl

/-- Every message of the loop is a change notification for one of the visited pages. -/
theorem trackPages_mem (p : Prober) (l : List (String × String)) (s : State) (e : Message)
    (he : e ∈ (trackPages p l s).2) :
    ∃ u k, (u, k) ∈ l ∧
      (e.isStatusFor (s.baseURL ++ u) = true ∨ e.isBlockFor (s.baseURL ++ u) = true) := by
  induction l generalizing s with
  | nil => simp [trackPages] at he
  | cons x rest ih =>
    obtain ⟨url, cls⟩ := x
    simp only [trackPages, List.mem_append] at he
    rcases he with he | he
    · rw [trackPage_sent, List.mem_append] at he
      rcases he with he | he
      · exact ⟨url, cls, List.mem_cons_self _ _, Or.inl (mem_statusMsgs_isStatusFor he)⟩
      · exact ⟨url, cls, List.mem_cons_self _ _, Or.inr (mem_blockMsgs_isBlockFor he)⟩
    · obtain ⟨u, k, hmem, hor⟩ := ih (trackPage p s url cls).1 he
      rw [trackPage_baseURL] at hor
      exact ⟨u, k, List.mem_cons_of_mem _ hmem, hor⟩

/-! ## One cycle and the polling loop -/

@[simp] theorem trackChanges_baseURL (r : List (String × String) → List (String × String))
    (p : Prober) (s : State) : (trackChanges r p s).1.baseURL = s.baseURL := by
  simp [trackChanges]

@[simp] theorem trackChanges_language (r : List (String × String) → List (String × String))
    (p : Prober) (s : State) : (trackChanges r p s).1.language = s.language := by
  simp [trackChanges]

@[simp] theorem trackChanges_messages (r : List (String × String) → List (String × String))
    (p : Prober) (s : State) : (trackChanges r p s).1.messages = s.messages := by
  simp [trackChanges]

@[simp] theorem trackChanges_pages (r : List (String × String) → List (String × String))
    (p : Prober) (s : State) : (trackChanges r p s).1.pages = s.pages := by
  simp [trackChanges]

theorem trackChanges_visited (c : Cycle) (s : State) {url cls : String}
    (hr : ∀ l, (c.range l).Perm l) (hk : KeysDistinct s.pages) (hm : (url, cls) ∈ s.pages) :
    Visited c.checkPageStatus url cls s (trackChanges c.range c.checkPageStatus s) := by
  have hp := hr s.pages
  refine trackPages_visited c.checkPageStatus (c.range s.pages) s ?_ ((hp.mem_iff).2 hm)
  exact ((hp.map Prod.fst).nodup_iff).2 hk

theorem trackChanges_untouched (c : Cycle) (s : State) {k : String}
    (hr : ∀ l, (c.range l).Perm l) (hk : k ∉ s.pages.map Prod.fst) :
    Untouched k s (trackChanges c.range c.checkPageStatus s) := by
  have hp := hr s.pages
  refine trackPages_untouched c.checkPageStatus (c.range s.pages) s ?_
  intro hin
  exact hk (((hp.map Prod.fst).mem_iff).1 hin)

/-- One cycle, for one metric of one configured page: the notifications sent and the window
left behind, from the window read before the cycle and the sample probed in it. -/
theorem trackChanges_metric (m : Metric) (c : Cycle) (s : State) {url cls : String}
    (hr : ∀ l, (c.range l).Perm l) (hk : KeysDistinct s.pages) (hm : (url, cls) ∈ s.pages) :
    m.eventsFor (s.baseURL ++ url) (trackChanges c.range c.checkPageStatus s).2
        = changeMsgs (m.event s url) (m.window s url)
            (m.sample (c.checkPageStatus (s.baseURL ++ url) cls)) ∧
      m.window (trackChanges c.range c.checkPageStatus s).1 url
        = (m.window s url).push (m.sample (c.checkPageStatus (s.baseURL ++ url) cls)) := by
  obtain ⟨h1, h2, -, h4, h5⟩ := trackChanges_visited c s hr hk hm
  cases m with
  | status => exact ⟨h4, h1⟩
  | blocks => exact ⟨h5, h2⟩

@[simp] theorem mainLoop_length (cs : List Cycle) (s : State) :
    (mainLoop cs s).2.length = cs.length := by
  induction cs generalizing s with
  | nil => rfl
  | cons c cs ih => simp [mainLoop, ih]

theorem event_congr (m : Metric) {s s' : State} (B : String)
    (hb : s'.baseURL = s.baseURL) (hl : s'.language = s.language)
    (hms : s'.messages = s.messages) : m.event s' B = m.event s B := by
  funext o n
  cases m <;> simp [Metric.event, hb, hl, hms]

theorem samples_congr (m : Metric) {s s' : State} {B cls : String} {cs cs' : List Cycle}
    (hb : s'.baseURL = s.baseURL)
    (hs : cs'.map (fun c => c.checkPageStatus (s.baseURL ++ B) cls)
      = cs.map (fun c => c.checkPageStatus (s.baseURL ++ B) cls)) :
    m.samples s' B cls cs' = m.samples s B cls cs := by
  have := congrArg (List.map m.sample) hs
  simp only [List.map_map] at this
  simp only [Metric.samples, hb]
  exact this

/-- Over a run of the polling loop, the notifications of one metric of one configured page,
and its final window, are those of the page's own window fed the page's own samples. -/
theorem mainLoop_metric (m : Metric) (cs : List Cycle) (s : State) {url cls : String}
    (hr : RangesPermute cs) (hk : KeysDistinct s.pages) (hm : (url, cls) ∈ s.pages) :
    m.eventsPerCycle s url cs
        = changeTrace (m.event s url) (m.window s url) (m.samples s url cls cs) ∧
      m.window (mainLoop cs s).1 url
        = (m.samples s url cls cs).foldl Arr4.push (m.window s url) := by
  induction cs generalizing s with
  | nil => exact ⟨rfl, rfl⟩
  | cons c cs ih =>
    have hc : ∀ l, (c.range l).Perm l := hr c (List.mem_cons_self _ _)
    have hr' : RangesPermute cs := fun c' hc' => hr c' (List.mem_cons_of_mem _ hc')
    obtain ⟨h1, h2⟩ := trackChanges_metric m c s hc hk hm
    obtain ⟨g1, g2⟩ := ih (trackChanges c.range c.checkPageStatus s).1 hr'
      (by simpa using hk) (by simpa using hm)
    have he : m.event (trackChanges c.range c.checkPageStatus s).1 url = m.event s url :=
      event_congr m url (trackChanges_baseURL _ _ _) (trackChanges_language _ _ _)
        (trackChanges_messages _ _ _)
    have hsam : m.samples (trackChanges c.range c.checkPageStatus s).1 url cls cs
        = m.samples s url cls cs := by
      simp only [Metric.samples, trackChanges_baseURL]
    rw [he, hsam, h2] at g1
    rw [hsam, h2] at g2
    refine ⟨?_, ?_⟩
    · simp only [Metric.eventsPerCycle, mainLoop, List.map_cons, Metric.samples,
        changeTrace] at g1 ⊢
      rw [trackChanges_baseURL] at g1
      rw [h1, g1]
    · simp only [mainLoop, Metric.samples, List.map_cons, List.foldl_cons] at g2 ⊢
      exact g2

theorem samples_const (m : Metric) {s : State} {url cls : String} {cs : List Cycle} {v : Int}
    (h : ∀ c ∈ cs, m.sample (c.checkPageStatus (s.baseURL ++ url) cls) = v) :
    m.samples s url cls cs = List.replicate cs.length v := by
  induction cs with
  | nil => rfl
  | cons c cs ih =>
    simp only [Metric.samples, List.map_cons, List.length_cons, List.replicate_succ]
    rw [h c (List.mem_cons_self _ _)]
    exact congrArg _ (ih fun c' hc' => h c' (List.mem_cons_of_mem _ hc'))

theorem restartBot_window (w : Reload) (s : State) (r : State × List Message)
    (h : restartBot w s = some r) (m : Metric) (url : String) :
    m.window r.1 url = m.window s url := by
  unfold restartBot at h
  split at h
  · cases h; cases m <;> rfl
  · cases h

theorem restartBot_config (w : Reload) (s : State) (r : State × List Message)
    (h : restartBot w s = some r) : r.1.pages = w.pages ∧ r.1.baseURL = w.BASE_URL := by
  unfold restartBot at h
  split at h
  · cases h; exact ⟨rfl, rfl⟩
  · cases h

theorem demoRun_rangesPermute (rs : List (Int × Int)) : RangesPermute (demoRun rs) := by
  intro c hc l
  simp only [demoRun, List.mem_map] at hc
  obtain ⟨r, -, rfl⟩ := hc
  exact List.reverse_perm l

/-! ## Windows fed a sample sequence -/

theorem changeMsgs_eq_nil_of_head (mk : Int → Int → Message) (h : Arr4) (v : Int)
    (e : h.i1 = h.i2 ∨ h.i1 = 0) : changeMsgs mk h v = [] := by
  unfold changeMsgs
  rw [if_neg]
  simp only [Arr4.fires, Arr4.push]
  rcases e with e | e
  · exact fun hf => hf.1 e
  · exact fun hf => hf.2.2.2 e

theorem changeMsgs_ne_nil (mk : Int → Int → Message) (h : Arr4) (v : Int)
    (hne : changeMsgs mk h v ≠ []) : (h.push v).fires := by
  unfold changeMsgs at hne
  by_contra hf
  exact hne (if_neg hf)

/-- A window whose last three entries equal the sample being fed stays silent for good. -/
theorem changeTrace_quiet (mk : Int → Int → Message) (x v : Int) (n : Nat) :
    changeTrace mk ⟨x, v, v, v⟩ (List.replicate n v) = List.replicate n [] := by
  induction n generalizing x with
  | zero => rfl
  | succ n ih =>
    simp only [List.replicate_succ, changeTrace, Arr4.push]
    rw [ih v, changeMsgs_eq_nil_of_head mk _ _ (Or.inl rfl)]

/-- From `[a, a, a, a]`, feeding `b` again and again fires on the third cycle only. -/
theorem changeTrace_sustained (mk : Int → Int → Message) {a b : Int} (ha : a ≠ 0) (hab : b ≠ a)
    (n : Nat) :
    changeTrace mk ⟨a, a, a, a⟩ (List.replicate (n + 3) b)
      = [[], [], [mk a b]] ++ List.replicate n [] := by
  simp only [List.replicate_succ, changeTrace, Arr4.push]
  rw [changeTrace_quiet, changeMsgs_eq_nil_of_head mk _ _ (Or.inl rfl),
    changeMsgs_eq_nil_of_head mk _ _ (Or.inl rfl)]
  have : changeMsgs mk ⟨a, a, b, b⟩ b = [mk a b] := by
    simp [changeMsgs, Arr4.fires, Arr4.push, ha, Ne.symm hab]
  rw [this]; rfl

/-- From `[a, a, a, a]`, one deviating sample `b` followed by `a` again and again: silence,
except on the third `a` cycle, where `b` is reported as the old value unless it is 0. -/
theorem changeTrace_flap (mk : Int → Int → Message) {a b : Int} (hab : a ≠ b) (n : Nat) :
    changeTrace mk ⟨a, a, a, a⟩ (b :: List.replicate n a)
      = ([[], [], [], if b ≠ 0 then [mk b a] else []] ++ List.replicate (n - 3) []).take
          (n + 1) := by
  have e1 : changeMsgs mk ⟨a, a, a, a⟩ b = [] := changeMsgs_eq_nil_of_head mk _ _ (Or.inl rfl)
  have e2 : changeMsgs mk ⟨a, a, a, b⟩ a = [] := changeMsgs_eq_nil_of_head mk _ _ (Or.inl rfl)
  have e3 : changeMsgs mk ⟨a, a, b, a⟩ a = [] := by
    simp [changeMsgs, Arr4.fires, Arr4.push, Ne.symm hab]
  have e4 : changeMsgs mk ⟨a, b, a, a⟩ a = if b ≠ 0 then [mk b a] else [] := by
    simp [changeMsgs, Arr4.fires, Arr4.push, Ne.symm hab]
  match n with
  | 0 => simp [changeTrace, e1]
  | 1 => simp [changeTrace, Arr4.push, e1, e2]
  | 2 => simp [changeTrace, Arr4.push, e1, e2, e3]
  | m + 3 =>
    simp only [List.replicate_succ, changeTrace, Arr4.push, e1, e2, e3, e4, changeTrace_quiet]
    simp [List.take_append_eq_append_take]

/-- From the all-zero window the first three cycles are silent, whatever is fed. -/
theorem changeTrace_startup (mk : Int → Int → Message) (vs : List Int) :
    (changeTrace mk ⟨0, 0, 0, 0⟩ vs).take 3 = List.replicate (min 3 vs.length) [] := by
  have e1 : ∀ v, changeMsgs mk ⟨0, 0, 0, 0⟩ v = [] :=
    fun v => changeMsgs_eq_nil_of_head mk _ v (Or.inl rfl)
  have e2 : ∀ x v, changeMsgs mk ⟨0, 0, 0, x⟩ v = [] :=
    fun x v => changeMsgs_eq_nil_of_head mk _ v (Or.inl rfl)
  have e3 : ∀ x y v, changeMsgs mk ⟨0, 0, x, y⟩ v = [] :=
    fun x y v => changeMsgs_eq_nil_of_head mk _ v (Or.inr rfl)
  match vs with
  | [] => rfl
  | [v1] => simp [changeTrace, e1]
  | [v1, v2] => simp [changeTrace, Arr4.push, e1, e2]
  | v1 :: v2 :: v3 :: rest => simp [changeTrace, Arr4.push, e1, e2, e3, List.replicate_succ]

/-- From the all-zero window, feeding one value again and again never fires. -/
theorem changeTrace_from_zero (mk : Int → Int → Message) (a : Int) (n : Nat) :
    changeTrace mk ⟨0, 0, 0, 0⟩ (List.replicate n a) = List.replicate n [] := by
  have e1 : changeMsgs mk ⟨0, 0, 0, 0⟩ a = [] := changeMsgs_eq_nil_of_head mk _ _ (Or.inl rfl)
  have e2 : changeMsgs mk ⟨0, 0, 0, a⟩ a = [] := changeMsgs_eq_nil_of_head mk _ _ (Or.inl rfl)
  have e3 : changeMsgs mk ⟨0, 0, a, a⟩ a = [] := changeMsgs_eq_nil_of_head mk _ _ (Or.inr rfl)
  match n with
  | 0 => rfl
  | 1 => simp [changeTrace, e1]
  | 2 => simp [changeTrace, Arr4.push, e1, e2]
  | m + 3 =>
    simp only [List.replicate_succ, changeTrace, Arr4.push, e1, e2, e3, changeTrace_quiet]

/-- After a cycle that fires, the next two cycles are silent. -/
theorem changeTrace_spacing (mk : Int → Int → Message) (h : Arr4) (vs : List Int) (n : Nat)
    (hne : (changeTrace mk h vs).getD n [] ≠ []) :
    (changeTrace mk h vs).getD (n + 1) [] = [] ∧ (changeTrace mk h vs).getD (n + 2) [] = [] := by
  induction n generalizing h vs with
  | zero =>
    match vs with
    | [] => simp [changeTrace] at hne
    | [v] => simp [changeTrace]
    | [v, v1] =>
      simp only [changeTrace, List.getD_cons_zero] at hne
      obtain ⟨-, h2, -, -⟩ := changeMsgs_ne_nil mk h v hne
      simp only [Arr4.push] at h2
      have e1 : changeMsgs mk (h.push v) v1 = [] :=
        changeMsgs_eq_nil_of_head mk _ _ (Or.inl h2)
      simp [changeTrace, e1]
    | v :: v1 :: v2 :: rest =>
      simp only [changeTrace, List.getD_cons_zero] at hne
      obtain ⟨-, h2, h3, -⟩ := changeMsgs_ne_nil mk h v hne
      simp only [Arr4.push] at h2 h3
      have e1 : changeMsgs mk (h.push v) v1 = [] :=
        changeMsgs_eq_nil_of_head mk _ _ (Or.inl h2)
      have e2 : changeMsgs mk ((h.push v).push v1) v2 = [] :=
        changeMsgs_eq_nil_of_head mk _ _ (Or.inl h3)
      simp [changeTrace, e1, e2]
  | succ n ih =>
    match vs with
    | [] => simp [changeTrace] at hne
    | v :: rest =>
      simp only [changeTrace, List.getD_cons_succ] at hne ⊢
      exact ih (h.push v) rest hne

/-- Every notification reports an old value that is not 0 and differs from the new value. -/
theorem changeTrace_shape (mk : Int → Int → Message) (h : Arr4) (vs : List Int)
    (l : List Message) (hl : l ∈ changeTrace mk h vs) (e : Message) (he : e ∈ l) :
    ∃ o v, e = mk o v ∧ o ≠ 0 ∧ o ≠ v := by
  induction vs generalizing h with
  | nil => simp [changeTrace] at hl
  | cons v rest ih =>
    simp only [changeTrace, List.mem_cons] at hl
    rcases hl with rfl | hl
    · unfold changeMsgs at he
      by_cases hf : (h.push v).fires
      · rw [if_pos hf] at he
        obtain ⟨h1, h2, h3, h4⟩ := hf
        simp only [Arr4.push] at h1 h2 h3 h4
        refine ⟨h.i1, v, by simpa using he, h4, ?_⟩
        rw [← h3, ← h2]; exact h1
      · rw [if_neg hf] at he; simp at he
    · exact ih (h.push v) hl

/-! ## The decision of one cycle -/

/-- C1, as stated, fails: with the window `[100, 200, 200, 200]` before the cycle and the new
sample 300, the three conditions of the claim hold on the prior window (`w1 = w2 = w3`,
`w0 ≠ w1`, `w0 ≠ 0`), yet no status-change notification is sent. -/
theorem decision_not_on_prior_window :
    ¬ (Metric.status.eventsFor "https://example.org/"
          (trackChanges (demoCycle (300, 5) (404, 7)).range
            (demoCycle (300, 5) (404, 7)).checkPageStatus
            (demoState ⟨100, 200, 200, 200⟩ ⟨5, 5, 5, 5⟩)).2 ≠ []
        ↔ ((Metric.status.window (demoState ⟨100, 200, 200, 200⟩ ⟨5, 5, 5, 5⟩) "/").i1
              = (Metric.status.window (demoState ⟨100, 200, 200, 200⟩ ⟨5, 5, 5, 5⟩) "/").i2 ∧
            (Metric.status.window (demoState ⟨100, 200, 200, 200⟩ ⟨5, 5, 5, 5⟩) "/").i2
              = (Metric.status.window (demoState ⟨100, 200, 200, 200⟩ ⟨5, 5, 5, 5⟩) "/").i3 ∧
            (Metric.status.window (demoState ⟨100, 200, 200, 200⟩ ⟨5, 5, 5, 5⟩) "/").i0
              ≠ (Metric.status.window (demoState ⟨100, 200, 200, 200⟩ ⟨5, 5, 5, 5⟩) "/").i1 ∧
            (Metric.status.window (demoState ⟨100, 200, 200, 200⟩ ⟨5, 5, 5, 5⟩) "/").i0
              ≠ 0)) := by
  decide

/-- C1, amended: the decision is taken on the window after the push.  For every configured
page and each metric, with `[w0, w1, w2, w3]` the page's window before the cycle and `v` the
cycle's sample, `trackChanges` sends a change notification for that metric in this cycle if and
only if `w2 = w3 = v`, `w1 ≠ w2` and `w1 ≠ 0`; it then sends exactly one, with old value `w1`
and new value `v`; the window after the cycle is `[w1, w2, w3, v]`. -/
theorem decision_on_pushed_window (m : Metric) (s : State) (url cls : String) (c : Cycle)
    (w0 w1 w2 w3 v : Int)
    (hr : ∀ l, (c.range l).Perm l) (hk : KeysDistinct s.pages) (hm : (url, cls) ∈ s.pages)
    (hw : m.window s url = ⟨w0, w1, w2, w3⟩)
    (hv : m.sample (c.checkPageStatus (s.baseURL ++ url) cls) = v) :
    (m.eventsFor (s.baseURL ++ url) (trackChanges c.range c.checkPageStatus s).2 ≠ []
        ↔ (w2 = w3 ∧ w3 = v ∧ w1 ≠ w2 ∧ w1 ≠ 0)) ∧
    (m.eventsFor (s.baseURL ++ url) (trackChanges c.range c.checkPageStatus s).2 ≠ [] →
      m.eventsFor (s.baseURL ++ url) (trackChanges c.range c.checkPageStatus s).2
        = [m.event s url w1 v]) ∧
    m.window (trackChanges c.range c.checkPageStatus s).1 url = ⟨w1, w2, w3, v⟩ := by
  obtain ⟨h1, h2⟩ := trackChanges_metric m c s hr hk hm
  rw [hw, hv] at h1 h2
  rw [h1, h2]
  refine ⟨?_, ?_, rfl⟩
  · unfold changeMsgs
    simp only [Arr4.fires, Arr4.push]
    constructor
    · intro hne
      by_contra hc
      apply hne
      rw [if_neg]
      rintro ⟨a1, a2, a3, a4⟩
      exact hc ⟨a2, a3, a1, a4⟩
    · rintro ⟨a2, a3, a1, a4⟩
      rw [if_pos ⟨a1, a2, a3, a4⟩]
      simp
  · intro hne
    have hf := changeMsgs_ne_nil _ _ _ hne
    unfold changeMsgs
    rw [if_pos hf]

/-- Witness of the amended C1: window `[200, 503, 503, 503]`, sample 503. -/
theorem decision_on_pushed_window_witness :
    Metric.status.window
        (trackChanges (demoCycle (503, 0) (404, 7)).range
          (demoCycle (503, 0) (404, 7)).checkPageStatus
          (demoState ⟨200, 503, 503, 503⟩ ⟨5, 5, 5, 5⟩)).1 "/" = ⟨503, 503, 503, 503⟩ :=
  (decision_on_pushed_window Metric.status (demoState ⟨200, 503, 503, 503⟩ ⟨5, 5, 5, 5⟩)
    "/" "card" (demoCycle (503, 0) (404, 7)) 200 503 503 503 503
    (fun l => List.reverse_perm l) (by decide) (by decide) (by decide) (by decide)).2.2

/-! ## Single-cycle flaps -/

/-- C2, as stated, fails: from the settled window `[200, 200, 200, 200]` the samples
500, 200, 200, 200 (one deviating sample) make the fourth cycle send a status-change
notification from 500 to 200. -/
theorem single_flap_is_notified :
    Metric.status.eventsPerCycle
        (demoState ⟨200, 200, 200, 200⟩ ⟨5, 5, 5, 5⟩) "/"
        (demoRun [(500, 5), (200, 5), (200, 5), (200, 5)])
      = [[], [], [],
          [Message.status_change "🟢" "status changed" "https://example.org/" 500 200]] := by
  decide

/-- C2, amended: for a configured page whose window of a metric is `[a, a, a, a]`, when one
sample `b ≠ a` is followed by `a` on every later cycle, no notification of that metric is sent
on the `b` cycle, on the first and second following `a` cycle, nor on the fourth or any later
one; on the third following `a` cycle a notification with old value `b` and new value `a` is
sent exactly when `b ≠ 0`. -/
theorem single_flap_trace (m : Metric) (s : State) (url cls : String)
    (c0 : Cycle) (cs : List Cycle) (a b : Int)
    (hr : RangesPermute (c0 :: cs)) (hk : KeysDistinct s.pages) (hm : (url, cls) ∈ s.pages)
    (hw : m.window s url = ⟨a, a, a, a⟩) (hab : a ≠ b)
    (h0 : m.sample (c0.checkPageStatus (s.baseURL ++ url) cls) = b)
    (hs : ∀ c ∈ cs, m.sample (c.checkPageStatus (s.baseURL ++ url) cls) = a) :
    m.eventsPerCycle s url (c0 :: cs)
      = ([[], [], [], if b ≠ 0 then [m.event s url b a] else []]
          ++ List.replicate (cs.length - 3) []).take (cs.length + 1) := by
  have hsam : m.samples s url cls (c0 :: cs) = b :: List.replicate cs.length a := by
    have := samples_const m hs
    simp only [Metric.samples, List.map_cons] at this ⊢
    rw [h0, this]
  rw [(mainLoop_metric m (c0 :: cs) s hr hk hm).1, hw, hsam, changeTrace_flap _ hab]

/-- Witness of the amended C2 on the block metric: window `[5, 5, 5, 5]`, then a failed probe
(count 0) followed by four cycles of 5 again: nothing is sent. -/
theorem single_flap_trace_witness :
    Metric.blocks.eventsPerCycle
        (demoState ⟨200, 200, 200, 200⟩ ⟨5, 5, 5, 5⟩) "/"
        (demoRun [(0, 0), (200, 5), (200, 5), (200, 5), (200, 5)])
      = [[], [], [], [], []] :=
  single_flap_trace Metric.blocks (demoState ⟨200, 200, 200, 200⟩ ⟨5, 5, 5, 5⟩) "/" "card"
    (demoCycle (0, 0) (404, 7)) (demoRun [(200, 5), (200, 5), (200, 5), (200, 5)]) 5 0
    (demoRun_rangesPermute [(0, 0), (200, 5), (200, 5), (200, 5), (200, 5)])
    (by decide) (by decide) (by decide) (by decide) (by decide) (by decide)

/-! ## Sustained transitions -/

/-- C3: a sustained transition fires exactly once.  For a configured page whose window of a
metric is `[a, a, a, a]` with `a ≠ 0`, when the sample `b ≠ a` is observed on `k ≥ 3`
consecutive cycles, the notifications of that metric for the page are: none on the first and
second cycle, exactly one on the third (old value `a`, new value `b`), none on any later
cycle; the window after the third cycle is `[a, b, b, b]`. -/
theorem sustained_transition_fires_once (m : Metric) (s : State) (url cls : String)
    (cs : List Cycle) (a b : Int)
    (hr : RangesPermute cs) (hk : KeysDistinct s.pages) (hm : (url, cls) ∈ s.pages)
    (hw : m.window s url = ⟨a, a, a, a⟩) (ha : a ≠ 0) (hab : b ≠ a)
    (hs : ∀ c ∈ cs, m.sample (c.checkPageStatus (s.baseURL ++ url) cls) = b)
    (hlen : 3 ≤ cs.length) :
    m.eventsPerCycle s url cs
        = [[], [], [m.event s url a b]] ++ List.replicate (cs.length - 3) [] ∧
      m.window (mainLoop (cs.take 3) s).1 url = ⟨a, b, b, b⟩ := by
  obtain ⟨n, hn⟩ : ∃ n, cs.length = n + 3 := ⟨cs.length - 3, by omega⟩
  refine ⟨?_, ?_⟩
  · rw [(mainLoop_metric m cs s hr hk hm).1, hw, samples_const m hs, hn,
      changeTrace_sustained _ ha hab]
    simp
  · have hr3 : RangesPermute (cs.take 3) := fun c hc => hr c (List.mem_of_mem_take hc)
    have hs3 : ∀ c ∈ cs.take 3, m.sample (c.checkPageStatus (s.baseURL ++ url) cls) = b :=
      fun c hc => hs c (List.mem_of_mem_take hc)
    have hl3 : (cs.take 3).length = 3 := by rw [List.length_take]; omega
    rw [(mainLoop_metric m (cs.take 3) s hr3 hk hm).2, hw, samples_const m hs3, hl3]
    rfl

/-- Witness of C3 on the status metric: window `[200, 200, 200, 200]`, four cycles of 503. -/
theorem sustained_transition_fires_once_witness :
    Metric.status.eventsPerCycle
        (demoState ⟨200, 200, 200, 200⟩ ⟨5, 5, 5, 5⟩) "/"
        (demoRun [(503, 0), (503, 0), (503, 0), (503, 0)])
      = [[], [], [Message.status_change "🔴" "status changed" "https://example.org/" 200 503],
          []] :=
  (sustained_transition_fires_once Metric.status (demoState ⟨200, 200, 200, 200⟩ ⟨5, 5, 5, 5⟩)
    "/" "card" (demoRun [(503, 0), (503, 0), (503, 0), (503, 0)]) 200 503
    (demoRun_rangesPermute _) (by decide) (by decide) (by decide) (by decide) (by decide)
    (by decide) (by decide)).1

/-! ## Probe failures -/

/-- C4, as stated, fails in its second half: from a fresh state, four cycles of status 200,
four failed probes (status 0) and three cycles of status 200 again send the "went down"
notification on the third failed probe and nothing on the three recovered cycles. -/
theorem recovery_is_not_notified :
    Metric.status.eventsPerCycle freshState "/"
        (demoRun [(200, 5), (200, 5), (200, 5), (200, 5), (0, 0), (0, 0), (0, 0), (0, 0),
          (200, 5), (200, 5), (200, 5)])
      = [[], [], [], [], [], [],
          [Message.status_change "🟡" "status changed" "https://example.org/" 200 0],
          [], [], [], []] := by
  decide

/-- C4, amended: the failure sample 0 is debounced like any other new value, but a window that
settled at 0 reports nothing when the page recovers.  For a configured page and every status
`a ≠ 0`: (i) from the status window `[a, a, a, a]`, three consecutive samples 0 send a
status-change notification (old `a`, new 0) on the third cycle and none before; (ii) from the
status window `[0, 0, 0, 0]`, consecutive samples `a`, however many, send no status-change
notification. -/
theorem probe_failure_debounce (s : State) (url cls : String) (cs : List Cycle) (a : Int)
    (hr : RangesPermute cs) (hk : KeysDistinct s.pages) (hm : (url, cls) ∈ s.pages)
    (ha : a ≠ 0) :
    (Metric.status.window s url = ⟨a, a, a, a⟩ →
      (∀ c ∈ cs, (c.checkPageStatus (s.baseURL ++ url) cls).1 = 0) → cs.length = 3 →
      Metric.status.eventsPerCycle s url cs
        = [[], [], [Message.status_change (getStatusEmoji 0)
            (s.messages s.language "status_change") (s.baseURL ++ url) a 0]]) ∧
    (Metric.status.window s url = ⟨0, 0, 0, 0⟩ →
      (∀ c ∈ cs, (c.checkPageStatus (s.baseURL ++ url) cls).1 = a) →
      Metric.status.eventsPerCycle s url cs = List.replicate cs.length []) := by
  refine ⟨fun hw hs hlen => ?_, fun hw hs => ?_⟩
  · have hsam : Metric.status.samples s url cls cs = List.replicate cs.length 0 :=
      samples_const Metric.status hs
    rw [(mainLoop_metric Metric.status cs s hr hk hm).1, hw, hsam, hlen,
      changeTrace_sustained _ ha (Ne.symm ha) 0]
    rfl
  · have hsam : Metric.status.samples s url cls cs = List.replicate cs.length a :=
      samples_const Metric.status hs
    rw [(mainLoop_metric Metric.status cs s hr hk hm).1, hw, hsam, changeTrace_from_zero]

/-- Witness of the amended C4: window `[200, 200, 200, 200]` and three failed probes; window
`[0, 0, 0, 0]` and three cycles of status 200. -/
theorem probe_failure_debounce_witness :
    Metric.status.eventsPerCycle
        (demoState ⟨200, 200, 200, 200⟩ ⟨5, 5, 5, 5⟩) "/" (demoRun [(0, 0), (0, 0), (0, 0)])
      = [[], [], [Message.status_change "🟡" "status changed" "https://example.org/" 200 0]] ∧
    Metric.status.eventsPerCycle
        (demoState ⟨0, 0, 0, 0⟩ ⟨0, 0, 0, 0⟩) "/" (demoRun [(200, 5), (200, 5), (200, 5)])
      = [[], [], []] :=
  ⟨(probe_failure_debounce (demoState ⟨200, 200, 200, 200⟩ ⟨5, 5, 5, 5⟩) "/" "card"
      (demoRun [(0, 0), (0, 0), (0, 0)]) 200 (demoRun_rangesPermute _) (by decide) (by decide)
      (by decide)).1 (by decide) (by decide) (by decide),
   (probe_failure_debounce (demoState ⟨0, 0, 0, 0⟩ ⟨0, 0, 0, 0⟩) "/" "card"
      (demoRun [(200, 5), (200, 5), (200, 5)]) 200 (demoRun_rangesPermute _) (by decide)
      (by decide) (by decide)).2 (by decide) (by decide)⟩

/-! ## Startup -/

/-- C5: startup suppression.  For a configured page whose window of a metric is all zero (the
page was never observed), whatever the samples are, no notification of that metric is sent for
the page on the first three cycles. -/
theorem startup_suppression (m : Metric) (s : State) (url cls : String) (cs : List Cycle)
    (hr : RangesPermute cs) (hk : KeysDistinct s.pages) (hm : (url, cls) ∈ s.pages)
    (hw : m.window s url = Arr4.zero) :
    (m.eventsPerCycle s url cs).take 3 = List.replicate (min 3 cs.length) [] := by
  have hl : (m.samples s url cls cs).length = cs.length := by simp [Metric.samples]
  rw [(mainLoop_metric m cs s hr hk hm).1, hw, Arr4.zero, changeTrace_startup, hl]

/-- Witness of C5: a fresh state, samples (200, 12), (503, 0), (200, 12), (200, 12). -/
theorem startup_suppression_witness :
    (Metric.status.eventsPerCycle freshState "/"
        (demoRun [(200, 12), (503, 0), (200, 12), (200, 12)])).take 3 = [[], [], []] :=
  startup_suppression Metric.status freshState "/" "card"
    (demoRun [(200, 12), (503, 0), (200, 12), (200, 12)])
    (demoRun_rangesPermute _) (by decide) (by decide) (by decide)

/-! ## Restart -/

/-- C6, as stated, fails: `restartBot` returns with the status window of page "/" still
`[200, 200, 200, 200]`, and three post-restart cycles of status 503 send a status-change
notification on the third. -/
theorem restart_keeps_window :
    (restartBot demoReload (demoState ⟨200, 200, 200, 200⟩ ⟨5, 5, 5, 5⟩)).map
        (fun r => (Metric.status.window r.1 "/",
          Metric.status.eventsPerCycle r.1 "/" (demoRun [(503, 0), (503, 0), (503, 0)])))
      = some (⟨200, 200, 200, 200⟩,
          [[], [], [Message.status_change "🔴" "status changed" "https://example.org/"
            200 503]]) := by
  decide

/-- C6, amended: a restart keeps the history.  When the environment file loads, `restartBot`
returns, and the status window and the block window of every page after it are those before
it, not all zero.  The post-restart cycles are therefore decided from the pre-restart windows:
for a page of the reloaded configuration, no notification of a metric is sent during the first
three cycles after the restart when the page's pre-restart window of that metric is all zero;
when it is `[a, a, a, a]` with `a ≠ 0`, three post-restart cycles with the sample `b ≠ a` send
one notification of that metric (old `a`, new `b`), on the third cycle. -/
theorem restartBot_keeps_history (w : Reload) (s : State) (he : w.envLoaded = true) :
    (restartBot w s).map (fun r => r.1.statusHistory) = some s.statusHistory ∧
    (restartBot w s).map (fun r => r.1.blockHistory) = some s.blockHistory ∧
    (∀ r, restartBot w s = some r →
      ∀ (m : Metric) (url cls : String) (cs : List Cycle),
        RangesPermute cs → KeysDistinct w.pages → (url, cls) ∈ w.pages →
        (m.window s url = Arr4.zero →
          (m.eventsPerCycle r.1 url cs).take 3 = List.replicate (min 3 cs.length) []) ∧
        (∀ a b : Int, m.window s url = ⟨a, a, a, a⟩ → a ≠ 0 → b ≠ a →
          (∀ c ∈ cs, m.sample (c.checkPageStatus (w.BASE_URL ++ url) cls) = b) →
          cs.length = 3 →
          m.eventsPerCycle r.1 url cs = [[], [], [m.event r.1 url a b]])) := by
  refine ⟨by simp [restartBot, he], by simp [restartBot, he], ?_⟩
  intro r hres m url cls cs hr hk hm
  obtain ⟨hp, hb⟩ := restartBot_config w s r hres
  rw [← hp] at hk hm
  have htrace := (mainLoop_metric m cs r.1 hr hk hm).1
  rw [restartBot_window w s r hres m url] at htrace
  refine ⟨fun hw => ?_, fun a b hw ha hab hs hlen => ?_⟩
  · have hl : (m.samples r.1 url cls cs).length = cs.length := by simp [Metric.samples]
    rw [htrace, hw, Arr4.zero, changeTrace_startup, hl]
  · rw [← hb] at hs
    rw [htrace, hw, samples_const m hs, hlen, changeTrace_sustained _ ha hab 0]
    rfl

/-- Witness of the amended C6: the worked configuration is reloaded unchanged over the
settled status window `[200, 200, 200, 200]`; the block window `[0, 0, 0, 0]` of the page
keeps the first three post-restart cycles silent for the block metric. -/
theorem restartBot_keeps_history_witness :
    (restartBot demoReload (demoState ⟨200, 200, 200, 200⟩ ⟨0, 0, 0, 0⟩)).map
          (fun r => r.1.statusHistory)
        = some (demoState ⟨200, 200, 200, 200⟩ ⟨0, 0, 0, 0⟩).statusHistory ∧
      (restartBot demoReload (demoState ⟨200, 200, 200, 200⟩ ⟨0, 0, 0, 0⟩)).map
          (fun r => (Metric.blocks.eventsPerCycle r.1 "/"
            (demoRun [(503, 7), (503, 7), (503, 7), (503, 7)])).take 3)
        = some [[], [], []] :=
  ⟨(restartBot_keeps_history demoReload (demoState ⟨200, 200, 200, 200⟩ ⟨0, 0, 0, 0⟩) rfl).1,
   congrArg some
    (((restartBot_keeps_history demoReload (demoState ⟨200, 200, 200, 200⟩ ⟨0, 0, 0, 0⟩)
      rfl).2.2 _ rfl Metric.blocks "/" "card" (demoRun [(503, 7), (503, 7), (503, 7), (503, 7)])
      (demoRun_rangesPermute _) (by decide) (by decide)).1 (by decide))⟩

/-! ## Payload of a notification -/

/-- C7: the new value of every notification is the sample just probed for that page.  In one
cycle, for every configured page `(url, cls)` with probe result `(status, blockCount)` in this
cycle: every status-change notification sent for the page carries `new_status = status` and the
indicator `getStatusEmoji status`; every block-count-change notification sent for the page
carries `new_blocks = blockCount`; and every message sent in the cycle is such a notification
for some configured page. -/
theorem notification_carries_current_sample (s : State) (url cls : String) (c : Cycle)
    (hr : ∀ l, (c.range l).Perm l) (hk : KeysDistinct s.pages) (hm : (url, cls) ∈ s.pages) :
    (∀ e ∈ statusEventsFor (s.baseURL ++ url) (trackChanges c.range c.checkPageStatus s).2,
      ∃ o, e = Message.status_change
        (getStatusEmoji (c.checkPageStatus (s.baseURL ++ url) cls).1)
        (s.messages s.language "status_change") (s.baseURL ++ url) o
        (c.checkPageStatus (s.baseURL ++ url) cls).1) ∧
    (∀ e ∈ blockEventsFor (s.baseURL ++ url) (trackChanges c.range c.checkPageStatus s).2,
      ∃ o, e = Message.block_count_change
        (s.messages s.language "block_count_change") (s.baseURL ++ url) o
        (c.checkPageStatus (s.baseURL ++ url) cls).2) ∧
    (∀ e ∈ (trackChanges c.range c.checkPageStatus s).2, ∃ u k, (u, k) ∈ s.pages ∧
      (e ∈ statusEventsFor (s.baseURL ++ u) (trackChanges c.range c.checkPageStatus s).2 ∨
       e ∈ blockEventsFor (s.baseURL ++ u) (trackChanges c.range c.checkPageStatus s).2)) := by
  obtain ⟨-, -, -, h4, h5⟩ := trackChanges_visited c s hr hk hm
  refine ⟨?_, ?_, ?_⟩
  · intro e he
    rw [h4] at he
    unfold statusMsgs at he
    split at he
    · exact ⟨_, List.mem_singleton.1 he⟩
    · simp at he
  · intro e he
    rw [h5] at he
    unfold blockMsgs at he
    split at he
    · exact ⟨_, List.mem_singleton.1 he⟩
    · simp at he
  · intro e he
    obtain ⟨u, k, hmem, hor⟩ := trackPages_mem c.checkPageStatus (c.range s.pages) s e he
    refine ⟨u, k, ((hr s.pages).mem_iff).1 hmem, ?_⟩
    rcases hor with h | h
    · exact Or.inl (List.mem_filter.2 ⟨he, h⟩)
    · exact Or.inr (List.mem_filter.2 ⟨he, h⟩)

/-- Witness of C7: block window `[9, 5, 8, 8]`; the cycle probes `(503, 8)` for the page and
`(404, 7)` for the other one, and the notification sent reports the count 8. -/
theorem notification_carries_current_sample_witness :
    ∃ o, Message.block_count_change "block count changed" "https://example.org/" 5 8
      = Message.block_count_change "block count changed" "https://example.org/" o 8 :=
  (notification_carries_current_sample (demoState ⟨200, 200, 503, 503⟩ ⟨9, 5, 8, 8⟩)
    "/" "card" (demoCycle (503, 8) (404, 7))
    (fun l => List.reverse_perm l) (by decide) (by decide)).2.1
    (Message.block_count_change "block count changed" "https://example.org/" 5 8) (by decide)

/-! ## Independence across pages -/

/-- C8: independence across pages.  (a) The loop body run for a page `A` leaves the entries
`statusHistory[B]`, `blockHistory[B]` and `prevData[B]` of every other key `B` unchanged and
sends no notification for `B`.  (b) The notifications sent for a configured page `B` over a
run, with their payloads, and the windows of `B` after it, depend only on the configuration,
on the windows of `B` at the start and on the sequence of probe results of `B`: two runs that
agree on these send the same notifications for `B` in every cycle, whatever the other pages,
their histories, their samples and the visiting orders are. -/
theorem pages_independent (s s' : State) (B cls : String) (cs cs' : List Cycle)
    (hr : RangesPermute cs) (hr' : RangesPermute cs')
    (hk : KeysDistinct s.pages) (hk' : KeysDistinct s'.pages)
    (hm : (B, cls) ∈ s.pages) (hm' : (B, cls) ∈ s'.pages)
    (hb : s'.baseURL = s.baseURL) (hl : s'.language = s.language)
    (hms : s'.messages = s.messages)
    (hw : ∀ m : Metric, m.window s' B = m.window s B)
    (hs : cs'.map (fun c => c.checkPageStatus (s.baseURL ++ B) cls)
      = cs.map (fun c => c.checkPageStatus (s.baseURL ++ B) cls)) :
    (∀ (p : Prober) (A clsA : String), A ≠ B →
      (trackPage p s A clsA).1.statusHistory B = s.statusHistory B ∧
      (trackPage p s A clsA).1.blockHistory B = s.blockHistory B ∧
      (trackPage p s A clsA).1.prevData B = s.prevData B ∧
      statusEventsFor (s.baseURL ++ B) (trackPage p s A clsA).2 = [] ∧
      blockEventsFor (s.baseURL ++ B) (trackPage p s A clsA).2 = []) ∧
    (∀ m : Metric,
      m.eventsPerCycle s' B cs' = m.eventsPerCycle s B cs ∧
      m.window (mainLoop cs' s').1 B = m.window (mainLoop cs s).1 B) := by
  refine ⟨fun p A clsA hne => trackPage_untouched p s A clsA (Ne.symm hne), fun m => ?_⟩
  obtain ⟨h1, h2⟩ := mainLoop_metric m cs s hr hk hm
  obtain ⟨g1, g2⟩ := mainLoop_metric m cs' s' hr' hk' hm'
  rw [h1, h2, g1, g2, samples_congr m hb hs, event_congr m B hb hl hms, hw m]
  exact ⟨rfl, rfl⟩

/-- Witness of C8: two runs from the same state in which page "/" yields 503 three times,
while page "/news" yields different results and the visiting order differs. -/
theorem pages_independent_witness :
    Metric.status.eventsPerCycle (demoState ⟨200, 200, 200, 200⟩ ⟨5, 5, 5, 5⟩) "/"
        [otherCycle (503, 5) (200, 9), otherCycle (503, 5) (0, 0), otherCycle (503, 5) (0, 0)]
      = Metric.status.eventsPerCycle (demoState ⟨200, 200, 200, 200⟩ ⟨5, 5, 5, 5⟩) "/"
        (demoRun [(503, 5), (503, 5), (503, 5)]) :=
  ((pages_independent (demoState ⟨200, 200, 200, 200⟩ ⟨5, 5, 5, 5⟩)
    (demoState ⟨200, 200, 200, 200⟩ ⟨5, 5, 5, 5⟩) "/" "card"
    (demoRun [(503, 5), (503, 5), (503, 5)])
    [otherCycle (503, 5) (200, 9), otherCycle (503, 5) (0, 0), otherCycle (503, 5) (0, 0)]
    (demoRun_rangesPermute _)
    (by intro c hc l
        simp only [List.mem_cons, List.mem_singleton, List.not_mem_nil, or_false] at hc
        rcases hc with rfl | rfl | rfl <;> exact List.Perm.refl l)
    (by decide) (by decide) (by decide) (by decide) rfl rfl rfl (fun _ => rfl)
    (by decide)).2 Metric.status).1

/-! ## The status indicator -/

/-- C9: for every integer status, `getStatusEmoji` returns the green indicator exactly when the
status is 200, the red indicator exactly when the status is at least 500, and the yellow
indicator in every other case (0, 404, negative values, ...); in particular 200 is green,
503 is red, 404 and 0 are yellow. -/
theorem getStatusEmoji_cases (status : Int) :
    (getStatusEmoji status = "🟢" ↔ status = 200) ∧
    (getStatusEmoji status = "🔴" ↔ status ≥ 500) ∧
    (getStatusEmoji status = "🟡" ↔ (status ≠ 200 ∧ ¬ status ≥ 500)) ∧
    getStatusEmoji 200 = "🟢" ∧ getStatusEmoji 503 = "🔴" ∧
    getStatusEmoji 404 = "🟡" ∧ getStatusEmoji 0 = "🟡" := by
  have g_r : ("🟢" : String) ≠ "🔴" := by decide
  have g_y : ("🟢" : String) ≠ "🟡" := by decide
  have r_y : ("🔴" : String) ≠ "🟡" := by decide
  refine ⟨?_, ?_, ?_, by decide, by decide, by decide, by decide⟩
  · unfold getStatusEmoji
    by_cases h : status = 200
    · simp [h]
    · by_cases h5 : status ≥ 500
      · simp [h, h5, g_r.symm]
      · simp [h, h5, g_y.symm]
  · unfold getStatusEmoji
    by_cases h : status = 200
    · subst h; simp [g_r]
    · by_cases h5 : status ≥ 500
      · simp [h, h5]
      · simp [h, h5, r_y.symm]
  · unfold getStatusEmoji
    by_cases h : status = 200
    · subst h; simp [g_y]
    · by_cases h5 : status ≥ 500
      · simp [h, h5, r_y]
      · simp [h, h5]

/-! ## Spacing and shape of notifications -/

/-- C10: notifications of one metric for one configured page are at least three cycles apart:
for every initial window and every sample sequence, when a notification of the metric is sent
for the page at cycle `n`, none is sent for it at cycles `n + 1` and `n + 2`; and every such
notification carries an old value that is not 0 and differs from its new value. -/
theorem events_three_cycles_apart (m : Metric) (s : State) (url cls : String) (cs : List Cycle)
    (hr : RangesPermute cs) (hk : KeysDistinct s.pages) (hm : (url, cls) ∈ s.pages) :
    (∀ n, (m.eventsPerCycle s url cs).getD n [] ≠ [] →
      (m.eventsPerCycle s url cs).getD (n + 1) [] = [] ∧
      (m.eventsPerCycle s url cs).getD (n + 2) [] = []) ∧
    (∀ l ∈ m.eventsPerCycle s url cs, ∀ e ∈ l,
      ∃ o v, e = m.event s url o v ∧ o ≠ 0 ∧ o ≠ v) := by
  rw [(mainLoop_metric m cs s hr hk hm).1]
  exact ⟨fun n hne => changeTrace_spacing _ _ _ n hne,
    fun l hl e he => changeTrace_shape _ _ _ l hl e he⟩

/-- Witness of C10: from `[200, 200, 200, 200]` the samples 503, 503, 503, 200, 200 fire at
cycle index 2, so cycle indices 3 and 4 are silent. -/
theorem events_three_cycles_apart_witness :
    (Metric.status.eventsPerCycle (demoState ⟨200, 200, 200, 200⟩ ⟨5, 5, 5, 5⟩) "/"
        (demoRun [(503, 0), (503, 0), (503, 0), (200, 5), (200, 5)])).getD 3 [] = [] ∧
    (Metric.status.eventsPerCycle (demoState ⟨200, 200, 200, 200⟩ ⟨5, 5, 5, 5⟩) "/"
        (demoRun [(503, 0), (503, 0), (503, 0), (200, 5), (200, 5)])).getD 4 [] = [] :=
  (events_three_cycles_apart Metric.status (demoState ⟨200, 200, 200, 200⟩ ⟨5, 5, 5, 5⟩) "/"
    "card" (demoRun [(503, 0), (503, 0), (503, 0), (200, 5), (200, 5)])
    (demoRun_rangesPermute _) (by decide) (by decide)).1 2 (by decide)

end TelegramWebAlerts
